import Mathlib

/-!
Verification of the typed-wrapper ("flavor") system in `src/newtype.rs` and the
SSE2-backed boolean mask `BVec4A` in `src/bool/sse2/bvec4a.rs`.

The SSE register `__m128` is modelled as four 32-bit lanes, each lane a bit
pattern stored as a natural number (machine width made explicit with `% 2 ^ 32`
where the hardware reads a fixed-width lane).
-/

set_option autoImplicit false

/-- Model of the `__m128` SSE register: four 32-bit lanes, lowest lane first.
`_mm_movemask_ps` and the lanewise logical intrinsics view the register this
way (four 32-bit lanes, sign bit = bit 31 of each lane). -/
structure M128 where
  l0 : Nat
  l1 : Nat
  l2 : Nat
  l3 : Nat

/-- Source `_mm_and_ps`: lanewise bitwise AND. -/
def mm_and_ps (a b : M128) : M128 :=
  ⟨a.l0 &&& b.l0, a.l1 &&& b.l1, a.l2 &&& b.l2, a.l3 &&& b.l3⟩

/-- Source `_mm_or_ps`: lanewise bitwise OR. -/
def mm_or_ps (a b : M128) : M128 :=
  ⟨a.l0 ||| b.l0, a.l1 ||| b.l1, a.l2 ||| b.l2, a.l3 ||| b.l3⟩

/-- Source `_mm_xor_ps`: lanewise bitwise XOR. -/
def mm_xor_ps (a b : M128) : M128 :=
  ⟨a.l0 ^^^ b.l0, a.l1 ^^^ b.l1, a.l2 ^^^ b.l2, a.l3 ^^^ b.l3⟩

/-- Bitwise complement of one 32-bit lane: the lane's 32 bits are flipped
(`% 2 ^ 32` makes the machine width explicit). -/
def comp32 (x : Nat) : Nat := (x % 2 ^ 32) ^^^ 0xffffffff

/-- Source `_mm_andnot_ps a b`: lanewise `(NOT a) AND b`. -/
def mm_andnot_ps (a b : M128) : M128 :=
  ⟨comp32 a.l0 &&& b.l0, comp32 a.l1 &&& b.l1, comp32 a.l2 &&& b.l2, comp32 a.l3 &&& b.l3⟩

/-- Source `_mm_set_ps1 x`: broadcast one 32-bit pattern to all four lanes. -/
def mm_set_ps1 (x : Nat) : M128 := ⟨x, x, x, x⟩

/-- Source `_mm_movemask_ps`: gather the most significant bit (bit 31) of each 32-bit
lane; lane 0 lands in bit 0 of the result, lane 1 in bit 1, and so on. -/
def mm_movemask_ps (a : M128) : Nat :=
  ((a.l0 >>> 31) % 2) ||| (((a.l1 >>> 31) % 2) <<< 1)
    ||| (((a.l2 >>> 31) % 2) <<< 2) ||| (((a.l3 >>> 31) % 2) <<< 3)

/-- Source `BVec4A`: a 4-dimensional SIMD vector mask backed by one `__m128`. -/
structure BVec4A where
  reg : M128

/-- Source `const MASK: [u32; 2] = [0, 0xff_ff_ff_ff]`. -/
def MASK : List Nat := [0, 0xffffffff]

/-- Source `BVec4A::new`: builds each lane from `MASK[b as usize]` (all-zero for
`false`, all-one for `true`). -/
def BVec4A.new (x y z w : Bool) : BVec4A :=
  ⟨⟨MASK.getD x.toNat 0, MASK.getD y.toNat 0, MASK.getD z.toNat 0, MASK.getD w.toNat 0⟩⟩

/-- Source `const FALSE: BVec4A = BVec4A::new(false, false, false, false)`. -/
def FALSE : BVec4A := BVec4A.new false false false false

/-- Source `BVec4A::bitmask`: `_mm_movemask_ps(self.0) as u32`. -/
def BVec4A.bitmask (self : BVec4A) : Nat := mm_movemask_ps self.reg

/-- Source `BVec4A::any`: `_mm_movemask_ps(self.0) != 0`. -/
def BVec4A.any (self : BVec4A) : Bool := mm_movemask_ps self.reg != 0

/-- Source `BVec4A::all`: `_mm_movemask_ps(self.0) == 0xf`. -/
def BVec4A.all (self : BVec4A) : Bool := mm_movemask_ps self.reg == 0xf

/-- Source `BVec4A::into_bool_array`: decodes the four low bits of the bitmask. -/
def BVec4A.into_bool_array (self : BVec4A) : List Bool :=
  [(self.bitmask &&& 1) != 0, (self.bitmask &&& 2) != 0,
    (self.bitmask &&& 4) != 0, (self.bitmask &&& 8) != 0]

/-- Source `BVec4A::into_u32_array`: re-expands each bitmask bit through `MASK`. -/
def BVec4A.into_u32_array (self : BVec4A) : List Nat :=
  [MASK.getD (self.bitmask &&& 1) 0, MASK.getD ((self.bitmask >>> 1) &&& 1) 0,
    MASK.getD ((self.bitmask >>> 2) &&& 1) 0, MASK.getD ((self.bitmask >>> 3) &&& 1) 0]

/-- Source `impl Default for BVec4A`: returns `FALSE`. -/
def BVec4A.default : BVec4A := FALSE

/-- Source `impl PartialEq for BVec4A`: equality of the bitmask summaries. -/
def BVec4A.beq (self rhs : BVec4A) : Bool := self.bitmask == rhs.bitmask

/-- Source `impl BitAnd for BVec4A`: `_mm_and_ps`. -/
def BVec4A.bitand (self rhs : BVec4A) : BVec4A := ⟨mm_and_ps self.reg rhs.reg⟩

/-- Source `impl BitOr for BVec4A`: `_mm_or_ps`. -/
def BVec4A.bitor (self rhs : BVec4A) : BVec4A := ⟨mm_or_ps self.reg rhs.reg⟩

/-- Source `impl BitXor for BVec4A`: `_mm_xor_ps`. -/
def BVec4A.bitxor (self rhs : BVec4A) : BVec4A := ⟨mm_xor_ps self.reg rhs.reg⟩

/-- Source `impl Not for BVec4A`: `_mm_andnot_ps(self.0, _mm_set_ps1(f32::from_bits(0xff_ff_ff_ff)))`
— AND-NOT against the all-ones register (the `f32` is only a bit pattern). -/
def BVec4A.not (self : BVec4A) : BVec4A := ⟨mm_andnot_ps self.reg (mm_set_ps1 0xffffffff)⟩

/-- Masks producible by the component's public operations: `new`, `default`,
and the logical AND / OR / XOR / NOT operators. -/
inductive Reachable : BVec4A → Prop where
  | new (x y z w : Bool) : Reachable (BVec4A.new x y z w)
  | dflt : Reachable BVec4A.default
  | and {a b : BVec4A} : Reachable a → Reachable b → Reachable (a.bitand b)
  | or {a b : BVec4A} : Reachable a → Reachable b → Reachable (a.bitor b)
  | xor {a b : BVec4A} : Reachable a → Reachable b → Reachable (a.bitxor b)
  | not {a : BVec4A} : Reachable a → Reachable a.not

/-- A well-formed mask lane: all 32 bits zero or all 32 bits one. -/
abbrev LaneGood (x : Nat) : Prop := x = 0 ∨ x = 0xffffffff

/-- All four lanes of a mask are well formed. -/
abbrev GoodLanes (m : BVec4A) : Prop :=
  LaneGood m.reg.l0 ∧ LaneGood m.reg.l1 ∧ LaneGood m.reg.l2 ∧ LaneGood m.reg.l3

theorem laneGood_and {a b : Nat} (ha : LaneGood a) (hb : LaneGood b) :
    LaneGood (a &&& b) := by
  rcases ha with h | h <;> rcases hb with h2 | h2 <;> subst h <;> subst h2 <;> decide

theorem laneGood_or {a b : Nat} (ha : LaneGood a) (hb : LaneGood b) :
    LaneGood (a ||| b) := by
  rcases ha with h | h <;> rcases hb with h2 | h2 <;> subst h <;> subst h2 <;> decide

theorem laneGood_xor {a b : Nat} (ha : LaneGood a) (hb : LaneGood b) :
    LaneGood (a ^^^ b) := by
  rcases ha with h | h <;> rcases hb with h2 | h2 <;> subst h <;> subst h2 <;> decide

theorem laneGood_andnot_ones {a : Nat} (ha : LaneGood a) :
    LaneGood (comp32 a &&& 0xffffffff) := by
  rcases ha with h | h <;> subst h <;> decide

/-- Claim C6: every mask producible by `new`, `default`, AND, OR, XOR, or NOT
has each of its four lanes equal to all-zero or all-one. -/
theorem reachable_mask_lanes_good (m : BVec4A) (h : Reachable m) : GoodLanes m := by
  induction h with
  | new x y z w => cases x <;> cases y <;> cases z <;> cases w <;> decide
  | dflt => decide
  | and _ _ iha ihb =>
      exact ⟨laneGood_and iha.1 ihb.1, laneGood_and iha.2.1 ihb.2.1,
        laneGood_and iha.2.2.1 ihb.2.2.1, laneGood_and iha.2.2.2 ihb.2.2.2⟩
  | or _ _ iha ihb =>
      exact ⟨laneGood_or iha.1 ihb.1, laneGood_or iha.2.1 ihb.2.1,
        laneGood_or iha.2.2.1 ihb.2.2.1, laneGood_or iha.2.2.2 ihb.2.2.2⟩
  | xor _ _ iha ihb =>
      exact ⟨laneGood_xor iha.1 ihb.1, laneGood_xor iha.2.1 ihb.2.1,
        laneGood_xor iha.2.2.1 ihb.2.2.1, laneGood_xor iha.2.2.2 ihb.2.2.2⟩
  | not _ iha =>
      exact ⟨laneGood_andnot_ones iha.1, laneGood_andnot_ones iha.2.1,
        laneGood_andnot_ones iha.2.2.1, laneGood_andnot_ones iha.2.2.2⟩

/-- Witness for C6 at the concrete mask `new true false true false`. -/
theorem reachable_mask_lanes_good_witness :
    Reachable (BVec4A.new true false true false) ∧ GoodLanes (BVec4A.new true false true false) :=
  ⟨Reachable.new true false true false,
    reachable_mask_lanes_good _ (Reachable.new true false true false)⟩

/-- Claim C5: for all booleans, bit `i` of the bitmask of `new x y z w` is set
iff lane `i` is true, all bits above the lowest four are zero, and in
particular `new true false false false` has bitmask `0b0001`. -/
theorem bitmask_encodes_lanes :
    (∀ x y z w : Bool,
      (BVec4A.new x y z w).bitmask.testBit 0 = x ∧
      (BVec4A.new x y z w).bitmask.testBit 1 = y ∧
      (BVec4A.new x y z w).bitmask.testBit 2 = z ∧
      (BVec4A.new x y z w).bitmask.testBit 3 = w ∧
      (BVec4A.new x y z w).bitmask < 16) ∧
    (BVec4A.new true false false false).bitmask = 1 := by
  decide

/-- Claim C7: for masks built from boolean arrays, the bitmask of a lanewise
AND / OR / XOR equals the bitwise AND / OR / XOR of the two bitmasks. -/
theorem bitmask_distributes_over_logic :
    ∀ a0 a1 a2 a3 b0 b1 b2 b3 : Bool,
      ((BVec4A.new a0 a1 a2 a3).bitand (BVec4A.new b0 b1 b2 b3)).bitmask
          = (BVec4A.new a0 a1 a2 a3).bitmask &&& (BVec4A.new b0 b1 b2 b3).bitmask ∧
      ((BVec4A.new a0 a1 a2 a3).bitor (BVec4A.new b0 b1 b2 b3)).bitmask
          = (BVec4A.new a0 a1 a2 a3).bitmask ||| (BVec4A.new b0 b1 b2 b3).bitmask ∧
      ((BVec4A.new a0 a1 a2 a3).bitxor (BVec4A.new b0 b1 b2 b3)).bitmask
          = (BVec4A.new a0 a1 a2 a3).bitmask ^^^ (BVec4A.new b0 b1 b2 b3).bitmask := by
  decide

/-- Claim C8: `any` is true iff the bitmask is nonzero and `all` is true iff
the bitmask is `0b1111`; the all-true mask satisfies `all` and `any`, and the
all-false mask fails `any`. -/
theorem any_all_via_bitmask :
    (∀ m : BVec4A, (m.any = true ↔ m.bitmask ≠ 0) ∧ (m.all = true ↔ m.bitmask = 0xf)) ∧
    (BVec4A.new true true true true).all = true ∧
    (BVec4A.new true true true true).any = true ∧
    (BVec4A.new false false false false).any = false := by
  refine ⟨fun m => ⟨?_, ?_⟩, by decide, by decide, by decide⟩ <;>
    simp [BVec4A.any, BVec4A.all, BVec4A.bitmask]

/-- Claim C9: logical NOT (AND-NOT against all-ones) complements every lane:
`!new x y z w` equals `new !x !y !z !w` under the mask's bitmask equality. -/
theorem not_complements_every_lane :
    ∀ x y z w : Bool,
      BVec4A.beq (BVec4A.new x y z w).not (BVec4A.new (!x) (!y) (!z) (!w)) = true := by
  decide

theorem bitmask_new_of_low_bits (n : Nat) (h : n < 16) :
    (BVec4A.new ((n &&& 1) != 0) ((n &&& 2) != 0) ((n &&& 4) != 0) ((n &&& 8) != 0)).bitmask
      = n := by
  interval_cases n <;> decide

theorem bitmask_lt_16 (m : BVec4A) : m.bitmask < 16 := by
  obtain ⟨⟨l0, l1, l2, l3⟩⟩ := m
  rcases Nat.mod_two_eq_zero_or_one (l0 >>> 31) with h0 | h0 <;>
    rcases Nat.mod_two_eq_zero_or_one (l1 >>> 31) with h1 | h1 <;>
      rcases Nat.mod_two_eq_zero_or_one (l2 >>> 31) with h2 | h2 <;>
        rcases Nat.mod_two_eq_zero_or_one (l3 >>> 31) with h3 | h3 <;>
          simp [BVec4A.bitmask, mm_movemask_ps, h0, h1, h2, h3]

/-- Claim C10: converting a mask to its boolean array and rebuilding a mask
from those four booleans reproduces a mask equal (under the mask's
bitmask-based equality) to the original. -/
theorem bool_array_roundtrip (m : BVec4A) :
    BVec4A.beq
      (BVec4A.new (m.into_bool_array.getD 0 false) (m.into_bool_array.getD 1 false)
        (m.into_bool_array.getD 2 false) (m.into_bool_array.getD 3 false)) m = true := by
  simp only [BVec4A.into_bool_array, BVec4A.beq, List.getD_cons_zero, List.getD_cons_succ]
  rw [bitmask_new_of_low_bits m.bitmask (bitmask_lt_16 m)]
  exact beq_self_eq_true _

/-- Source `trait VecFlavor { type Backing: BackingVec; }` — a flavor tag type
declaring exactly one backing type. The `BackingVec` capability bounds
(formatting, copy, equality, default, indexing) are sealed trait plumbing and
are not needed by the operations modelled below. -/
class VecFlavor (F : Type) where
  Backing : Type

attribute [reducible] VecFlavor.Backing

/-- Source `struct NewTypeVectorImpl<B, F>`: a backing value `vec` tagged with the
compile-time flavor parameter `F` (the Rust `PhantomData` field has no runtime
content and no model counterpart). -/
structure NewTypeVectorImpl (B : Type) (F : Type) where
  vec : B

/-- Source `type NewTypeVector<F> = NewTypeVectorImpl<F::Backing, F>`. -/
abbrev NewTypeVector (F : Type) [VecFlavor F] : Type :=
  NewTypeVectorImpl (VecFlavor.Backing F) F

/-- Source `trait FlavorConvertFrom<O>: VecFlavor` — a declared conversion rule from
a source type `O` into flavor `F`'s backing representation. -/
class FlavorConvertFrom (F : Type) (O : Type) [VecFlavor F] where
  vec_backing_from : O → VecFlavor.Backing F

/-- Source `NewTypeVector::into_raw`: returns the backing value. -/
def NewTypeVector.into_raw {F : Type} [VecFlavor F] (self : NewTypeVector F) :
    VecFlavor.Backing F :=
  self.vec

/-- Source `impl<F: VecFlavor> FlavorConvertFrom<NewTypeVector<F>> for F` — the
automatically provided self-conversion rule: `other.into_raw()`. -/
instance instSelfConvert (F : Type) [VecFlavor F] : FlavorConvertFrom F (NewTypeVector F) where
  vec_backing_from other := NewTypeVector.into_raw other

/-- Source `NewTypeVector::from_raw`: wraps a backing value with no transformation. -/
def NewTypeVector.from_raw {F : Type} [VecFlavor F] (vec : VecFlavor.Backing F) :
    NewTypeVector F :=
  ⟨vec⟩

/-- Source `NewTypeVector::from`: constructs from any source with a declared
conversion rule (`from` is a Lean keyword, hence the trailing apostrophe). -/
def NewTypeVector.from' {F O : Type} [VecFlavor F] [FlavorConvertFrom F O] (other : O) :
    NewTypeVector F :=
  NewTypeVector.from_raw (FlavorConvertFrom.vec_backing_from (F := F) other)

/-- Source `NewTypeVector::into::<T>`: converts to flavor `T` through `T`'s declared
rule for `NewTypeVector<F>` sources. -/
def NewTypeVector.into {F : Type} [VecFlavor F] (T : Type) [VecFlavor T]
    [FlavorConvertFrom T (NewTypeVector F)] (self : NewTypeVector F) : NewTypeVector T :=
  NewTypeVector.from' self

/-- Source `NewTypeVector::map_raw`: applies a pure transform to the backing value. -/
def NewTypeVector.map_raw {F : Type} [VecFlavor F] (self : NewTypeVector F)
    (f : VecFlavor.Backing F → VecFlavor.Backing F) : NewTypeVector F :=
  NewTypeVector.from_raw (f (NewTypeVector.into_raw self))

/-- Source `impl<F, R> Add<R> for NewTypeVector<F>` where `F: FlavorConvertFrom<R>`
and `F::Backing: Add`: the right operand is normalized through the flavor's
conversion rule, then the backing addition `addB` (the backing type's `Add`
capability) is applied. -/
def NewTypeVector.add {F R : Type} [VecFlavor F] [FlavorConvertFrom F R]
    (addB : VecFlavor.Backing F → VecFlavor.Backing F → VecFlavor.Backing F)
    (self : NewTypeVector F) (rhs : R) : NewTypeVector F :=
  NewTypeVector.map_raw self
    (fun lhs => addB lhs (FlavorConvertFrom.vec_backing_from (F := F) rhs))

/-- Source `impl<F, R> Sub<R> for NewTypeVector<F>`: as `Add`, with the backing
subtraction. -/
def NewTypeVector.sub {F R : Type} [VecFlavor F] [FlavorConvertFrom F R]
    (subB : VecFlavor.Backing F → VecFlavor.Backing F → VecFlavor.Backing F)
    (self : NewTypeVector F) (rhs : R) : NewTypeVector F :=
  NewTypeVector.map_raw self
    (fun lhs => subB lhs (FlavorConvertFrom.vec_backing_from (F := F) rhs))

/-- Source `impl<F, R> Mul<R> for NewTypeVector<F>`. -/
def NewTypeVector.mul {F R : Type} [VecFlavor F] [FlavorConvertFrom F R]
    (mulB : VecFlavor.Backing F → VecFlavor.Backing F → VecFlavor.Backing F)
    (self : NewTypeVector F) (rhs : R) : NewTypeVector F :=
  NewTypeVector.map_raw self
    (fun lhs => mulB lhs (FlavorConvertFrom.vec_backing_from (F := F) rhs))

/-- Source `impl<F, R> Div<R> for NewTypeVector<F>`. -/
def NewTypeVector.div {F R : Type} [VecFlavor F] [FlavorConvertFrom F R]
    (divB : VecFlavor.Backing F → VecFlavor.Backing F → VecFlavor.Backing F)
    (self : NewTypeVector F) (rhs : R) : NewTypeVector F :=
  NewTypeVector.map_raw self
    (fun lhs => divB lhs (FlavorConvertFrom.vec_backing_from (F := F) rhs))

/-- Source `impl<F, R> Rem<R> for NewTypeVector<F>`. -/
def NewTypeVector.rem {F R : Type} [VecFlavor F] [FlavorConvertFrom F R]
    (remB : VecFlavor.Backing F → VecFlavor.Backing F → VecFlavor.Backing F)
    (self : NewTypeVector F) (rhs : R) : NewTypeVector F :=
  NewTypeVector.map_raw self
    (fun lhs => remB lhs (FlavorConvertFrom.vec_backing_from (F := F) rhs))

/-- Source `impl<F, R> BitAnd<R> for NewTypeVector<F>`. -/
def NewTypeVector.bitand {F R : Type} [VecFlavor F] [FlavorConvertFrom F R]
    (andB : VecFlavor.Backing F → VecFlavor.Backing F → VecFlavor.Backing F)
    (self : NewTypeVector F) (rhs : R) : NewTypeVector F :=
  NewTypeVector.map_raw self
    (fun lhs => andB lhs (FlavorConvertFrom.vec_backing_from (F := F) rhs))

/-- Source `impl<F, R> BitOr<R> for NewTypeVector<F>`. -/
def NewTypeVector.bitor {F R : Type} [VecFlavor F] [FlavorConvertFrom F R]
    (orB : VecFlavor.Backing F → VecFlavor.Backing F → VecFlavor.Backing F)
    (self : NewTypeVector F) (rhs : R) : NewTypeVector F :=
  NewTypeVector.map_raw self
    (fun lhs => orB lhs (FlavorConvertFrom.vec_backing_from (F := F) rhs))

/-- Source `impl<F, R> BitXor<R> for NewTypeVector<F>`. -/
def NewTypeVector.bitxor {F R : Type} [VecFlavor F] [FlavorConvertFrom F R]
    (xorB : VecFlavor.Backing F → VecFlavor.Backing F → VecFlavor.Backing F)
    (self : NewTypeVector F) (rhs : R) : NewTypeVector F :=
  NewTypeVector.map_raw self
    (fun lhs => xorB lhs (FlavorConvertFrom.vec_backing_from (F := F) rhs))

/-- Source `impl<F, R> Shl<R> for NewTypeVector<F>` where `F::Backing: Shl<R>`: the
right operand is passed to the backing shift `shlB` unchanged — no conversion
rule is involved. -/
def NewTypeVector.shl {F R : Type} [VecFlavor F]
    (shlB : VecFlavor.Backing F → R → VecFlavor.Backing F)
    (self : NewTypeVector F) (rhs : R) : NewTypeVector F :=
  NewTypeVector.map_raw self (fun v => shlB v rhs)

/-- Source `impl<F, R> Shr<R> for NewTypeVector<F>` where `F::Backing: Shr<R>`: the
right operand is passed to the backing shift `shrB` unchanged — no conversion
rule is involved. -/
def NewTypeVector.shr {F R : Type} [VecFlavor F]
    (shrB : VecFlavor.Backing F → R → VecFlavor.Backing F)
    (self : NewTypeVector F) (rhs : R) : NewTypeVector F :=
  NewTypeVector.map_raw self (fun v => shrB v rhs)

/-- Left shift as the spec's "every binary operator" sentence describes it
(for comparison with `NewTypeVector.shl`, which is the code's behaviour): the
right operand is first normalized into the backing representation through the
flavor's declared conversion rule, then the backing shift is applied to the
two backing values. -/
def NewTypeVector.shl_spec {F R : Type} [VecFlavor F] [FlavorConvertFrom F R]
    (shlB : VecFlavor.Backing F → VecFlavor.Backing F → VecFlavor.Backing F)
    (self : NewTypeVector F) (rhs : R) : NewTypeVector F :=
  NewTypeVector.map_raw self
    (fun v => shlB v (FlavorConvertFrom.vec_backing_from (F := F) rhs))

/-- A concrete test flavor whose backing type is `Nat`, used to probe the
operator-forwarding contract at explicit inputs. -/
inductive PosFlavor : Type

abbrev instPosFlavorVec : VecFlavor PosFlavor := ⟨Nat⟩

attribute [instance] instPosFlavorVec

/-- A declared (non-identity) conversion rule from scalar `Nat` into
`PosFlavor`'s backing representation: adds one. -/
instance instPosFlavorFromNat : FlavorConvertFrom PosFlavor Nat := ⟨fun n => n + 1⟩

/-- Wraps a concrete scalar into the test flavor (backing `Nat`). -/
def posWrap (n : Nat) : NewTypeVector PosFlavor := NewTypeVector.from_raw n

/-- Claim C2: wrapping a backing value with `from_raw` and extracting it with
`into_raw` returns the value unchanged, for every flavor. -/
theorem from_raw_into_raw_roundtrip (F : Type) [VecFlavor F] (v : VecFlavor.Backing F) :
    NewTypeVector.into_raw (NewTypeVector.from_raw (F := F) v) = v := rfl

/-- Claim C3: the automatically provided self-conversion rule returns the
wrapper's raw backing value unchanged, so converting a wrapper to its own
flavor yields the same wrapper. -/
theorem self_conversion_identity (F : Type) [VecFlavor F] (w : NewTypeVector F) :
    FlavorConvertFrom.vec_backing_from (F := F) w = NewTypeVector.into_raw w ∧
    NewTypeVector.into F w = w :=
  ⟨rfl, rfl⟩

/-- Claim C1 counterexample: at flavor `PosFlavor` (backing `Nat`, with a
declared conversion rule from `Nat` that adds one), the left-shift operator
does not route its right operand through the conversion rule: shifting
`wrap 1` by `1` unwraps to `1 <<< 1 = 2`, whereas the backing shift applied to
the converted operand — what the claim dictates, as modelled by `shl_spec` —
gives `1 <<< (rule 1) = 1 <<< 2 = 4`. -/
theorem shl_skips_conversion_rule :
    (NewTypeVector.into_raw (NewTypeVector.shl Nat.shiftLeft (posWrap 1) 1) : Nat) = 2 ∧
    (NewTypeVector.into_raw (NewTypeVector.shl_spec Nat.shiftLeft (posWrap 1) 1) : Nat) = 4 ∧
    NewTypeVector.shl Nat.shiftLeft (posWrap 1) 1
      ≠ NewTypeVector.shl_spec Nat.shiftLeft (posWrap 1) 1 := by
  refine ⟨rfl, rfl, fun h => ?_⟩
  have h2 : (NewTypeVector.into_raw (NewTypeVector.shl Nat.shiftLeft (posWrap 1) 1) : Nat)
      = NewTypeVector.into_raw (NewTypeVector.shl_spec Nat.shiftLeft (posWrap 1) 1) :=
    congrArg NewTypeVector.into_raw h
  exact absurd h2 (by decide)

/-- Claim C1 (amended): for the eight converting binary operators — addition,
subtraction, multiplication, division, remainder, bitwise AND, OR, XOR — the
right operand is first normalized through the flavor's declared conversion
rule and the backing operator is then applied to the two backing values; the
left and right shift operators instead pass the right operand unchanged to
the backing type's shift; and adding two same-flavor wrappers forwards to
backing addition: `(wrap a + wrap b).into_raw = a + b`. -/
theorem binop_forwarding (F R : Type) [VecFlavor F] [FlavorConvertFrom F R]
    (opB : VecFlavor.Backing F → VecFlavor.Backing F → VecFlavor.Backing F)
    (shiftB : VecFlavor.Backing F → R → VecFlavor.Backing F)
    (self : NewTypeVector F) (r : R) :
    NewTypeVector.into_raw (NewTypeVector.add opB self r)
        = opB (NewTypeVector.into_raw self) (FlavorConvertFrom.vec_backing_from (F := F) r) ∧
    NewTypeVector.into_raw (NewTypeVector.sub opB self r)
        = opB (NewTypeVector.into_raw self) (FlavorConvertFrom.vec_backing_from (F := F) r) ∧
    NewTypeVector.into_raw (NewTypeVector.mul opB self r)
        = opB (NewTypeVector.into_raw self) (FlavorConvertFrom.vec_backing_from (F := F) r) ∧
    NewTypeVector.into_raw (NewTypeVector.div opB self r)
        = opB (NewTypeVector.into_raw self) (FlavorConvertFrom.vec_backing_from (F := F) r) ∧
    NewTypeVector.into_raw (NewTypeVector.rem opB self r)
        = opB (NewTypeVector.into_raw self) (FlavorConvertFrom.vec_backing_from (F := F) r) ∧
    NewTypeVector.into_raw (NewTypeVector.bitand opB self r)
        = opB (NewTypeVector.into_raw self) (FlavorConvertFrom.vec_backing_from (F := F) r) ∧
    NewTypeVector.into_raw (NewTypeVector.bitor opB self r)
        = opB (NewTypeVector.into_raw self) (FlavorConvertFrom.vec_backing_from (F := F) r) ∧
    NewTypeVector.into_raw (NewTypeVector.bitxor opB self r)
        = opB (NewTypeVector.into_raw self) (FlavorConvertFrom.vec_backing_from (F := F) r) ∧
    NewTypeVector.into_raw (NewTypeVector.shl shiftB self r)
        = shiftB (NewTypeVector.into_raw self) r ∧
    NewTypeVector.into_raw (NewTypeVector.shr shiftB self r)
        = shiftB (NewTypeVector.into_raw self) r ∧
    ∀ a b : VecFlavor.Backing F,
      NewTypeVector.into_raw
          (NewTypeVector.add opB (NewTypeVector.from_raw (F := F) a)
            (NewTypeVector.from_raw (F := F) b)) = opB a b :=
  ⟨rfl, rfl, rfl, rfl, rfl, rfl, rfl, rfl, rfl, rfl, fun _ _ => rfl⟩
